import Mathlib

/-!
Verification of the `tpool` asynchronous resource pool.

The repository ships the pool's tests (`tests/pool.spec.ts`), a TCP example
client (`src/examples/tcp-pool.ts`) and a TCP connection wrapper, but the
pool core itself (`src/pool.ts`, `src/priority-queue.ts`, …) is not among
the source files.  The pool-core definitions below are therefore modelled
from the specification; the TCP-connection and TCP-pool definitions are
shallow embeddings of the shipped source.
-/

namespace TPool

/-! ## Priority queue (spec §4.2)

Modelled from the spec: `src/priority-queue.ts` is not among the source
files.  A priority queue is a list of FIFO sub-queues of waiter ids,
indexed `0 .. P-1`, with 0 the highest priority. -/

/-- Modelled from the spec: clamp a requested priority into `[0, P-1]`;
values below 0 are treated as 0, values `≥ P` as `P-1`. -/
def clampPrio (p : Int) (pr : Nat) : Nat :=
  if p < 0 then 0 else min p.toNat (pr - 1)

/-- Replace the element at index `i` by `f` of it; out-of-range is a no-op. -/
def updateNth {α : Type} (l : List α) (i : Nat) (f : α → α) : List α :=
  match l, i with
  | [], _ => []
  | x :: xs, 0 => f x :: xs
  | x :: xs, i + 1 => x :: updateNth xs i f

/-- Modelled from the spec: append waiter `w` to the sub-queue of (already
clamped) priority class `p`. -/
def enqueueW (qs : List (List Nat)) (p : Nat) (w : Nat) : List (List Nat) :=
  updateNth qs p (fun q => q ++ [w])

/-- Modelled from the spec: peek the head of the first non-empty sub-queue,
returning its class index and the waiter id. -/
def peekW : List (List Nat) → Option (Nat × Nat)
  | [] => none
  | [] :: qs => (peekW qs).map (fun pw => (pw.1 + 1, pw.2))
  | (w :: _) :: _ => some (0, w)

/-- Modelled from the spec: remove the head of the first non-empty sub-queue. -/
def popW : List (List Nat) → List (List Nat)
  | [] => []
  | [] :: qs => [] :: popW qs
  | (_ :: q) :: qs => q :: qs

/-- Modelled from the spec: O(n) removal of a waiter by identity (used for
timed-out waiters). -/
def removeW (qs : List (List Nat)) (wid : Nat) : List (List Nat) :=
  qs.map (fun q => q.filter (fun x => x != wid))

/-- Is waiter `wid` present in some sub-queue? -/
def containsW (qs : List (List Nat)) (wid : Nat) : Bool :=
  qs.any (fun q => q.contains wid)

/-- Total number of queued waiters: sum of the sub-queue lengths. -/
def sumLens : List (List Nat) → Nat
  | [] => 0
  | q :: qs => q.length + sumLens qs

/-! ## Resource records (spec §3) -/

/-- Record states visible between atomic steps.  CREATING resources are
tracked by the `inflight` counter; VALIDATING / INVALID / DESTROYED are
transient inside a step and a destroyed record is removed at once. -/
inductive RState : Type where
  | IDLE : RState
  | ALLOCATED : RState
deriving DecidableEq, Repr

/-- One pool bookkeeping record: resource id and state. -/
structure Rec : Type where
  rid : Nat
  rstate : RState
deriving DecidableEq, Repr

/-- Set the state of the record with id `rid`. -/
def setState (rs : List Rec) (rid : Nat) (st : RState) : List Rec :=
  rs.map (fun r => if r.rid = rid then { r with rstate := st } else r)

/-- First IDLE record's id, if any. -/
def firstIdle : List Rec → Option Nat
  | [] => none
  | r :: rs => if r.rstate = RState.IDLE then some r.rid else firstIdle rs

/-- Find the record with id `rid`. -/
def findRec : List Rec → Nat → Option Rec
  | [], _ => none
  | r :: rs, rid => if r.rid = rid then some r else findRec rs rid

/-- Remove the record with id `rid` (first occurrence). -/
def removeRec : List Rec → Nat → List Rec
  | [], _ => []
  | r :: rs, rid => if r.rid = rid then rs else r :: removeRec rs rid

/-- Remove all IDLE records (clear's destruction of the idle population). -/
def dropIdle : List Rec → List Rec
  | [] => []
  | r :: rs => if r.rstate = RState.IDLE then dropIdle rs else r :: dropIdle rs

/-- Number of ALLOCATED records. -/
def countAllocated : List Rec → Nat
  | [] => 0
  | r :: rs => (if r.rstate = RState.ALLOCATED then 1 else 0) + countAllocated rs

/-- Number of IDLE records. -/
def countIdle : List Rec → Nat
  | [] => 0
  | r :: rs => (if r.rstate = RState.IDLE then 1 else 0) + countIdle rs

/-! ## Pool state (spec §3, §4.5) -/

/-- Pool lifecycle mode. -/
inductive Mode : Type where
  | RUNNING : Mode
  | DRAINING : Mode
  | CLEARED : Mode
deriving DecidableEq, Repr

/-- Error kinds of spec §7. -/
inductive PoolError : Type where
  | PoolShutdown : PoolError
  | AcquireTimeout : PoolError
  | FactoryCreateFailed : PoolError
  | PoolNotDrained : PoolError
  | InvalidConfiguration : PoolError
deriving DecidableEq, Repr

/-- Modelled from the spec: the pool's single logical state.  `fulfilled`
logs `(waiter id, resource id)` pairs in dispatch order and `rejected` logs
rejected waiters; `drainResolved` records whether the deferred returned by
`drain` has resolved. -/
structure PoolState : Type where
  maxR : Nat
  minR : Nat
  prange : Nat
  records : List Rec
  waiters : List (List Nat)
  nextRid : Nat
  nextWid : Nat
  inflight : Nat
  mode : Mode
  drainResolved : Bool
  fulfilled : List (Nat × Nat)
  rejected : List (Nat × PoolError)
deriving DecidableEq, Repr

/-- `size` counter: number of records. -/
def poolSize (s : PoolState) : Nat := s.records.length

/-- `borrowed` counter: number of ALLOCATED records. -/
def borrowedCount (s : PoolState) : Nat := countAllocated s.records

/-- `available` counter: number of IDLE records. -/
def availableCount (s : PoolState) : Nat := countIdle s.records

/-- `pending` counter: number of queued waiters. -/
def pendingCount (s : PoolState) : Nat := sumLens s.waiters

/-- `spare_capacity` counter: `max - size - creation_in_flight`. -/
def spareCapacity (s : PoolState) : Nat := s.maxR - (poolSize s + s.inflight)

/-- Modelled from the spec: the deferred returned by `drain` resolves once
the pool is DRAINING with no borrowed resources and no pending waiters. -/
def checkDrain (s : PoolState) : PoolState :=
  if s.mode = Mode.DRAINING ∧ borrowedCount s = 0 ∧ pendingCount s = 0 then
    { s with drainResolved := true }
  else s

/-- Modelled from the spec (dispatch rule, §4.5): while RUNNING, hand the
first IDLE record to the highest-priority waiter; `none` when no pairing
is possible. -/
def dispatchOnce (s : PoolState) : Option PoolState :=
  if s.mode = Mode.RUNNING then
    match peekW s.waiters, firstIdle s.records with
    | some pw, some rid =>
        some { s with records := setState s.records rid RState.ALLOCATED,
                      waiters := popW s.waiters,
                      fulfilled := s.fulfilled ++ [(pw.2, rid)] }
    | _, _ => none
  else none

/-- Iterate `dispatchOnce` with fuel. -/
def dispatchAvail : Nat → PoolState → PoolState
  | 0, s => s
  | n + 1, s =>
    match dispatchOnce s with
    | some s' => dispatchAvail n s'
    | none => s

/-- Modelled from the spec (dispatch rule step 3): while RUNNING, start new
creations for waiters not already covered by in-flight creations, within
`max - size - inflight` room. -/
def startCreations (s : PoolState) : PoolState :=
  if s.mode = Mode.RUNNING then
    { s with inflight :=
        s.inflight + min (pendingCount s - s.inflight)
                         (s.maxR - (s.records.length + s.inflight)) }
  else s

/-- Modelled from the spec: full dispatch pass — allocate every possible
IDLE record to waiters, then request creations for the remainder. -/
def dispatch (s : PoolState) : PoolState :=
  startCreations (dispatchAvail (pendingCount s) s)

/-! ## Pool operations (spec §4.5, §4.6) -/

/-- Modelled from the spec: `acquire(priority)` — fails with `PoolShutdown`
unless RUNNING; otherwise enqueue a fresh waiter at the clamped priority
and run dispatch.  It never fails because of the priority argument. -/
def acquire (s : PoolState) (p : Int) : Except PoolError PoolState :=
  if s.mode = Mode.RUNNING then
    Except.ok (dispatch
      { s with waiters := enqueueW s.waiters (clampPrio p s.prange) s.nextWid,
               nextWid := s.nextWid + 1 })
  else Except.error PoolError.PoolShutdown

/-- Modelled from the spec: `release(resource)` — silently a no-op if the
record is unknown or already IDLE; otherwise transition to IDLE, dispatch,
and check drain resolution. -/
def release (s : PoolState) (rid : Nat) : PoolState :=
  match findRec s.records rid with
  | none => s
  | some r =>
    if r.rstate = RState.IDLE then s
    else checkDrain (dispatch { s with records := setState s.records rid RState.IDLE })

/-- Modelled from the spec: successful completion of one in-flight
creation — the new record joins the pool IDLE and dispatch hands it to the
current head waiter, if any. -/
def createComplete (s : PoolState) : PoolState :=
  if s.inflight = 0 then s
  else
    checkDrain (dispatch
      { s with inflight := s.inflight - 1,
               records := s.records ++ [⟨s.nextRid, RState.IDLE⟩],
               nextRid := s.nextRid + 1 })

/-- Modelled from the spec (§4.6): failure of one in-flight creation — the
earmarked (head) waiter, if any, is rejected with `FactoryCreateFailed`,
`creation_in_flight` decrements and dispatch re-runs. -/
def createFailure (s : PoolState) : PoolState :=
  if s.inflight = 0 then s
  else
    let s1 := { s with inflight := s.inflight - 1 }
    let s2 :=
      match peekW s1.waiters with
      | some pw =>
          { s1 with waiters := popW s1.waiters,
                    rejected := s1.rejected ++ [(pw.2, PoolError.FactoryCreateFailed)] }
      | none => s1
    checkDrain (dispatch s2)

/-- Modelled from the spec: an acquire timeout fires — the waiter is
removed from the queue and rejected with `AcquireTimeout`. -/
def waiterTimeout (s : PoolState) (wid : Nat) : PoolState :=
  if containsW s.waiters wid then
    checkDrain { s with waiters := removeW s.waiters wid,
                        rejected := s.rejected ++ [(wid, PoolError.AcquireTimeout)] }
  else s

/-- Modelled from the spec: `drain()` — RUNNING becomes DRAINING; the
drain deferred resolves once borrowed and pending are both zero. -/
def drain (s : PoolState) : PoolState :=
  if s.mode = Mode.RUNNING then checkDrain { s with mode := Mode.DRAINING }
  else checkDrain s

/-- Modelled from the spec: `clear()` — requires mode DRAINING or CLEARED,
fails with `PoolNotDrained` while loans are outstanding; otherwise destroys
every IDLE record, removes them and sets mode CLEARED. -/
def clear (s : PoolState) : Except PoolError PoolState :=
  if s.mode = Mode.RUNNING then Except.error PoolError.PoolNotDrained
  else if countAllocated s.records ≠ 0 then Except.error PoolError.PoolNotDrained
  else Except.ok { s with records := dropIdle s.records, mode := Mode.CLEARED }

/-- Modelled from the spec: `destroy(resource)` — force-retire a loaned
resource: remove its record and re-run dispatch. -/
def destroyResource (s : PoolState) (rid : Nat) : PoolState :=
  match findRec s.records rid with
  | some r =>
    if r.rstate = RState.ALLOCATED then
      checkDrain (dispatch { s with records := removeRec s.records rid })
    else s
  | none => s

/-- Modelled from the spec (§4.4): one eviction of an idle record, allowed
only when it keeps `|records| ≥ min`. -/
def evict (s : PoolState) (rid : Nat) : PoolState :=
  match findRec s.records rid with
  | some r =>
    if r.rstate = RState.IDLE ∧ s.minR + 1 ≤ s.records.length then
      checkDrain { s with records := removeRec s.records rid }
    else s
  | none => s

/-- The observable pool events, each an atomic step. -/
inductive Event : Type where
  | acquireE : Int → Event
  | releaseE : Nat → Event
  | createOkE : Event
  | createFailE : Event
  | timeoutE : Nat → Event
  | drainE : Event
  | clearE : Event
  | destroyE : Nat → Event
  | evictE : Nat → Event
deriving DecidableEq, Repr

/-- One atomic step of the pool; failed operations leave the state as is. -/
def step (s : PoolState) : Event → PoolState
  | Event.acquireE p =>
    match acquire s p with
    | Except.ok s' => s'
    | Except.error _ => s
  | Event.releaseE rid => release s rid
  | Event.createOkE => createComplete s
  | Event.createFailE => createFailure s
  | Event.timeoutE wid => waiterTimeout s wid
  | Event.drainE => drain s
  | Event.clearE =>
    match clear s with
    | Except.ok s' => s'
    | Except.error _ => s
  | Event.destroyE rid => destroyResource s rid
  | Event.evictE rid => evict s rid

/-- Run a list of events from a state. -/
def runEvents (s : PoolState) (es : List Event) : PoolState :=
  es.foldl step s

/-- Modelled from the spec: pool construction — `InvalidConfiguration` when
`min > max` or `priority_range < 1`; otherwise pre-warm `min` creations. -/
def createPool (maxR minR prange : Nat) : Except PoolError PoolState :=
  if minR > maxR ∨ prange < 1 then Except.error PoolError.InvalidConfiguration
  else Except.ok
    { maxR := maxR, minR := minR, prange := prange,
      records := [], waiters := List.replicate prange [],
      nextRid := 0, nextWid := 0, inflight := minR,
      mode := Mode.RUNNING, drainResolved := false,
      fulfilled := [], rejected := [] }

/-- The inductive strengthening of the bound invariant: records plus
in-flight creations never exceed `max`. -/
def WF (s : PoolState) : Prop := s.records.length + s.inflight ≤ s.maxR

instance (s : PoolState) : Decidable (WF s) := by
  unfold WF
  infer_instance

/-! ## Structural lemmas -/

theorem updateNth_length {α : Type} (l : List α) (i : Nat) (f : α → α) :
    (updateNth l i f).length = l.length := by
  induction l generalizing i with
  | nil => rfl
  | cons x xs ih =>
    cases i with
    | zero => rfl
    | succ j => simpa [updateNth] using ih j

theorem popW_length (qs : List (List Nat)) : (popW qs).length = qs.length := by
  induction qs with
  | nil => rfl
  | cons q qs ih =>
    cases q with
    | nil => simpa [popW] using ih
    | cons w q => rfl

theorem setState_length (rs : List Rec) (rid : Nat) (st : RState) :
    (setState rs rid st).length = rs.length := by
  simp [setState]

theorem removeRec_length_le (rs : List Rec) (rid : Nat) :
    (removeRec rs rid).length ≤ rs.length := by
  induction rs with
  | nil => simp [removeRec]
  | cons r rs ih =>
    by_cases h : r.rid = rid
    · simp only [removeRec, if_pos h, List.length_cons]
      omega
    · simp only [removeRec, if_neg h, List.length_cons]
      omega

theorem dropIdle_length_le (rs : List Rec) : (dropIdle rs).length ≤ rs.length := by
  induction rs with
  | nil => simp [dropIdle]
  | cons r rs ih =>
    by_cases h : r.rstate = RState.IDLE
    · simp only [dropIdle, if_pos h, List.length_cons]
      omega
    · simp only [dropIdle, if_neg h, List.length_cons]
      omega

theorem countAllocated_le_length (rs : List Rec) : countAllocated rs ≤ rs.length := by
  induction rs with
  | nil => simp [countAllocated]
  | cons r rs ih =>
    simp only [countAllocated, List.length_cons]
    split <;> omega

theorem countIdle_dropIdle (rs : List Rec) : countIdle (dropIdle rs) = 0 := by
  induction rs with
  | nil => rfl
  | cons r rs ih =>
    by_cases h : r.rstate = RState.IDLE
    · simpa [dropIdle, h] using ih
    · simpa [dropIdle, countIdle, h] using ih


/-! ## Frame and preservation lemmas -/

theorem peekW_high_empty (qs : List (List Nat)) (p w : Nat)
    (h : peekW qs = some (p, w)) : ∀ i, i < p → qs.getD i [] = [] := by
  induction qs generalizing p with
  | nil => simp [peekW] at h
  | cons q qs ih =>
    cases q with
    | nil =>
      intro i hi
      simp only [peekW, Option.map_eq_some'] at h
      obtain ⟨pw, hpw, heq⟩ := h
      cases i with
      | zero => rfl
      | succ j =>
        have hp : pw.1 + 1 = p := congrArg Prod.fst heq
        have hw : pw.2 = w := congrArg Prod.snd heq
        have hq : peekW qs = some (pw.1, w) := by rw [hpw, ← hw]
        have := ih pw.1 hq j (by omega)
        simpa using this
    | cons x xs =>
      simp only [peekW, Option.some_inj] at h
      intro i hi
      have hp : p = 0 := by
        have := congrArg Prod.fst h
        simpa using this.symm
      omega

theorem checkDrain_counters (s : PoolState) :
    borrowedCount (checkDrain s) = borrowedCount s ∧
    pendingCount (checkDrain s) = pendingCount s ∧
    (checkDrain s).records = s.records ∧
    (checkDrain s).waiters = s.waiters ∧
    (checkDrain s).inflight = s.inflight ∧
    (checkDrain s).maxR = s.maxR ∧
    (checkDrain s).mode = s.mode := by
  unfold checkDrain
  split <;> simp [borrowedCount, pendingCount]

theorem checkDrain_WF {s : PoolState} (h : WF s) : WF (checkDrain s) := by
  unfold WF checkDrain at *
  split <;> simpa

theorem checkDrain_flag (s : PoolState)
    (h : (checkDrain s).drainResolved = true) :
    s.drainResolved = true ∨
      (borrowedCount (checkDrain s) = 0 ∧ pendingCount (checkDrain s) = 0) := by
  have hc := checkDrain_counters s
  unfold checkDrain at h
  split at h
  · rename_i hcond
    right
    rw [hc.1, hc.2.1]
    exact ⟨hcond.2.1, hcond.2.2⟩
  · left
    exact h

theorem checkDrain_mono {s : PoolState} (h : s.drainResolved = true) :
    (checkDrain s).drainResolved = true := by
  unfold checkDrain
  split <;> simp [h]

theorem dispatchOnce_frame {s s' : PoolState} (h : dispatchOnce s = some s') :
    s'.records.length = s.records.length ∧
    s'.waiters.length = s.waiters.length ∧
    s'.inflight = s.inflight ∧ s'.maxR = s.maxR ∧ s'.prange = s.prange ∧
    s'.mode = s.mode ∧ s'.drainResolved = s.drainResolved := by
  unfold dispatchOnce at h
  split at h
  · split at h
    · cases h
      simp [setState_length, popW_length]
    · cases h
  · cases h

theorem dispatchAvail_frame (n : Nat) (s : PoolState) :
    (dispatchAvail n s).records.length = s.records.length ∧
    (dispatchAvail n s).waiters.length = s.waiters.length ∧
    (dispatchAvail n s).inflight = s.inflight ∧
    (dispatchAvail n s).maxR = s.maxR ∧
    (dispatchAvail n s).prange = s.prange ∧
    (dispatchAvail n s).mode = s.mode ∧
    (dispatchAvail n s).drainResolved = s.drainResolved := by
  induction n generalizing s with
  | zero => simp [dispatchAvail]
  | succ m ih =>
    unfold dispatchAvail
    split
    · rename_i s' hs'
      have h1 := dispatchOnce_frame hs'
      have h2 := ih s'
      refine ⟨?_, ?_, ?_, ?_, ?_, ?_, ?_⟩
      · rw [h2.1, h1.1]
      · rw [h2.2.1, h1.2.1]
      · rw [h2.2.2.1, h1.2.2.1]
      · rw [h2.2.2.2.1, h1.2.2.2.1]
      · rw [h2.2.2.2.2.1, h1.2.2.2.2.1]
      · rw [h2.2.2.2.2.2.1, h1.2.2.2.2.2.1]
      · rw [h2.2.2.2.2.2.2, h1.2.2.2.2.2.2]
    · simp

theorem startCreations_frame (s : PoolState) :
    (startCreations s).records = s.records ∧
    (startCreations s).waiters = s.waiters ∧
    (startCreations s).maxR = s.maxR ∧
    (startCreations s).prange = s.prange ∧
    (startCreations s).mode = s.mode ∧
    (startCreations s).drainResolved = s.drainResolved := by
  unfold startCreations
  split <;> simp

theorem startCreations_WF {s : PoolState} (h : WF s) : WF (startCreations s) := by
  unfold WF startCreations at *
  split
  · simp only
    have : min (pendingCount s - s.inflight) (s.maxR - (s.records.length + s.inflight)) ≤
        s.maxR - (s.records.length + s.inflight) := Nat.min_le_right _ _
    omega
  · exact h

theorem dispatch_frame (s : PoolState) :
    (dispatch s).records.length = s.records.length ∧
    (dispatch s).waiters.length = s.waiters.length ∧
    (dispatch s).maxR = s.maxR ∧
    (dispatch s).prange = s.prange ∧
    (dispatch s).mode = s.mode ∧
    (dispatch s).drainResolved = s.drainResolved := by
  unfold dispatch
  have h1 := dispatchAvail_frame (pendingCount s) s
  have h2 := startCreations_frame (dispatchAvail (pendingCount s) s)
  refine ⟨?_, ?_, ?_, ?_, ?_, ?_⟩
  · rw [h2.1, h1.1]
  · rw [h2.2.1, h1.2.1]
  · rw [h2.2.2.1, h1.2.2.2.1]
  · rw [h2.2.2.2.1, h1.2.2.2.2.1]
  · rw [h2.2.2.2.2.1, h1.2.2.2.2.2.1]
  · rw [h2.2.2.2.2.2, h1.2.2.2.2.2.2]

theorem dispatch_WF {s : PoolState} (h : WF s) : WF (dispatch s) := by
  unfold dispatch
  apply startCreations_WF
  have h1 := dispatchAvail_frame (pendingCount s) s
  unfold WF at *
  omega


theorem acquire_WF {s : PoolState} {p : Int} {s' : PoolState}
    (h : acquire s p = Except.ok s') (hw : WF s) : WF s' := by
  unfold acquire at h
  split at h
  · cases h
    exact dispatch_WF hw
  · cases h

theorem release_WF {s : PoolState} {rid : Nat} (hw : WF s) : WF (release s rid) := by
  unfold release
  split
  · exact hw
  · split
    · exact hw
    · apply checkDrain_WF
      apply dispatch_WF
      unfold WF
      rw [setState_length]
      exact hw

theorem createComplete_WF {s : PoolState} (hw : WF s) : WF (createComplete s) := by
  unfold createComplete
  split
  · exact hw
  · rename_i hnz
    apply checkDrain_WF
    apply dispatch_WF
    unfold WF at *
    simp only [List.length_append, List.length_cons, List.length_nil]
    omega

theorem createFailure_WF {s : PoolState} (hw : WF s) : WF (createFailure s) := by
  unfold createFailure
  split
  · exact hw
  · apply checkDrain_WF
    apply dispatch_WF
    split
    · unfold WF at *
      simp only
      omega
    · unfold WF at *
      simp only
      omega

theorem waiterTimeout_WF {s : PoolState} {wid : Nat} (hw : WF s) :
    WF (waiterTimeout s wid) := by
  unfold waiterTimeout
  split
  · exact checkDrain_WF hw
  · exact hw

theorem drain_WF {s : PoolState} (hw : WF s) : WF (drain s) := by
  unfold drain
  split
  · exact checkDrain_WF hw
  · exact checkDrain_WF hw

theorem clear_WF {s : PoolState} {s' : PoolState}
    (h : clear s = Except.ok s') (hw : WF s) : WF s' := by
  unfold clear at h
  split at h
  · cases h
  · split at h
    · cases h
    · cases h
      unfold WF at *
      have := dropIdle_length_le s.records
      simp only
      omega

theorem destroyResource_WF {s : PoolState} {rid : Nat} (hw : WF s) :
    WF (destroyResource s rid) := by
  unfold destroyResource
  split
  · split
    · apply checkDrain_WF
      apply dispatch_WF
      unfold WF at *
      have := removeRec_length_le s.records rid
      simp only
      omega
    · exact hw
  · exact hw

theorem evict_WF {s : PoolState} {rid : Nat} (hw : WF s) : WF (evict s rid) := by
  unfold evict
  split
  · split
    · apply checkDrain_WF
      unfold WF at *
      have := removeRec_length_le s.records rid
      simp only
      omega
    · exact hw
  · exact hw

theorem step_WF (s : PoolState) (e : Event) (hw : WF s) : WF (step s e) := by
  cases e with
  | acquireE p =>
    simp only [step]
    split
    · rename_i s' hs'
      exact acquire_WF hs' hw
    · exact hw
  | releaseE rid => exact release_WF hw
  | createOkE => exact createComplete_WF hw
  | createFailE => exact createFailure_WF hw
  | timeoutE wid => exact waiterTimeout_WF hw
  | drainE => exact drain_WF hw
  | clearE =>
    simp only [step]
    split
    · rename_i s' hs'
      exact clear_WF hs' hw
    · exact hw
  | destroyE rid => exact destroyResource_WF hw
  | evictE rid => exact evict_WF hw

theorem createPool_WF {m n pr : Nat} {s0 : PoolState}
    (h : createPool m n pr = Except.ok s0) : WF s0 := by
  unfold createPool at h
  split at h
  · cases h
  · rename_i hc
    cases h
    unfold WF
    simp only [List.length_nil]
    omega


/-! ## Drain-resolution lemmas -/

theorem acquire_flag {s : PoolState} {p : Int} {s' : PoolState}
    (h : acquire s p = Except.ok s') : s'.drainResolved = s.drainResolved := by
  unfold acquire at h
  split at h
  · cases h
    exact (dispatch_frame _).2.2.2.2.2
  · cases h

theorem release_flag {s : PoolState} {rid : Nat}
    (h : (release s rid).drainResolved = true) :
    s.drainResolved = true ∨
      (borrowedCount (release s rid) = 0 ∧ pendingCount (release s rid) = 0) := by
  cases hf : findRec s.records rid with
  | none =>
    simp only [release, hf] at h ⊢
    left
    exact h
  | some r =>
    by_cases hs : r.rstate = RState.IDLE
    · simp only [release, hf, if_pos hs] at h ⊢
      left
      exact h
    · simp only [release, hf, if_neg hs] at h ⊢
      rcases checkDrain_flag _ h with h1 | h2
      · left
        rw [(dispatch_frame _).2.2.2.2.2] at h1
        exact h1
      · right
        exact h2

theorem release_mono {s : PoolState} {rid : Nat} (h : s.drainResolved = true) :
    (release s rid).drainResolved = true := by
  cases hf : findRec s.records rid with
  | none => simpa only [release, hf]
  | some r =>
    by_cases hs : r.rstate = RState.IDLE
    · simpa only [release, hf, if_pos hs]
    · simp only [release, hf, if_neg hs]
      apply checkDrain_mono
      rw [(dispatch_frame _).2.2.2.2.2]
      exact h

theorem createComplete_flag {s : PoolState}
    (h : (createComplete s).drainResolved = true) :
    s.drainResolved = true ∨
      (borrowedCount (createComplete s) = 0 ∧ pendingCount (createComplete s) = 0) := by
  by_cases hz : s.inflight = 0
  · simp only [createComplete, if_pos hz] at h ⊢
    left
    exact h
  · simp only [createComplete, if_neg hz] at h ⊢
    rcases checkDrain_flag _ h with h1 | h2
    · left
      rw [(dispatch_frame _).2.2.2.2.2] at h1
      exact h1
    · right
      exact h2

theorem createComplete_mono {s : PoolState} (h : s.drainResolved = true) :
    (createComplete s).drainResolved = true := by
  by_cases hz : s.inflight = 0
  · simpa only [createComplete, if_pos hz]
  · simp only [createComplete, if_neg hz]
    apply checkDrain_mono
    rw [(dispatch_frame _).2.2.2.2.2]
    exact h

theorem createFailure_flag {s : PoolState}
    (h : (createFailure s).drainResolved = true) :
    s.drainResolved = true ∨
      (borrowedCount (createFailure s) = 0 ∧ pendingCount (createFailure s) = 0) := by
  by_cases hz : s.inflight = 0
  · simp only [createFailure, if_pos hz] at h ⊢
    left
    exact h
  · simp only [createFailure, if_neg hz] at h ⊢
    rcases checkDrain_flag _ h with h1 | h2
    · left
      rw [(dispatch_frame _).2.2.2.2.2] at h1
      split at h1
      · exact h1
      · exact h1
    · right
      exact h2

theorem createFailure_mono {s : PoolState} (h : s.drainResolved = true) :
    (createFailure s).drainResolved = true := by
  by_cases hz : s.inflight = 0
  · simpa only [createFailure, if_pos hz]
  · simp only [createFailure, if_neg hz]
    apply checkDrain_mono
    rw [(dispatch_frame _).2.2.2.2.2]
    split
    · exact h
    · exact h

theorem waiterTimeout_flag {s : PoolState} {wid : Nat}
    (h : (waiterTimeout s wid).drainResolved = true) :
    s.drainResolved = true ∨
      (borrowedCount (waiterTimeout s wid) = 0 ∧ pendingCount (waiterTimeout s wid) = 0) := by
  by_cases hc : containsW s.waiters wid = true
  · simp only [waiterTimeout, if_pos hc] at h ⊢
    rcases checkDrain_flag _ h with h1 | h2
    · left
      exact h1
    · right
      exact h2
  · simp only [waiterTimeout, if_neg hc] at h ⊢
    left
    exact h

theorem waiterTimeout_mono {s : PoolState} {wid : Nat} (h : s.drainResolved = true) :
    (waiterTimeout s wid).drainResolved = true := by
  by_cases hc : containsW s.waiters wid = true
  · simp only [waiterTimeout, if_pos hc]
    exact checkDrain_mono h
  · simpa only [waiterTimeout, if_neg hc]

theorem drain_flag {s : PoolState}
    (h : (drain s).drainResolved = true) :
    s.drainResolved = true ∨
      (borrowedCount (drain s) = 0 ∧ pendingCount (drain s) = 0) := by
  by_cases hm : s.mode = Mode.RUNNING
  · simp only [drain, if_pos hm] at h ⊢
    rcases checkDrain_flag _ h with h1 | h2
    · left
      exact h1
    · right
      exact h2
  · simp only [drain, if_neg hm] at h ⊢
    rcases checkDrain_flag _ h with h1 | h2
    · left
      exact h1
    · right
      exact h2

theorem drain_mono {s : PoolState} (h : s.drainResolved = true) :
    (drain s).drainResolved = true := by
  by_cases hm : s.mode = Mode.RUNNING
  · simp only [drain, if_pos hm]
    exact checkDrain_mono h
  · simp only [drain, if_neg hm]
    exact checkDrain_mono h

theorem clear_flag {s : PoolState} {s' : PoolState}
    (h : clear s = Except.ok s') : s'.drainResolved = s.drainResolved := by
  unfold clear at h
  split at h
  · cases h
  · split at h
    · cases h
    · cases h
      rfl

theorem destroyResource_flag {s : PoolState} {rid : Nat}
    (h : (destroyResource s rid).drainResolved = true) :
    s.drainResolved = true ∨
      (borrowedCount (destroyResource s rid) = 0 ∧
        pendingCount (destroyResource s rid) = 0) := by
  cases hf : findRec s.records rid with
  | none =>
    simp only [destroyResource, hf] at h ⊢
    left
    exact h
  | some r =>
    by_cases hs : r.rstate = RState.ALLOCATED
    · simp only [destroyResource, hf, if_pos hs] at h ⊢
      rcases checkDrain_flag _ h with h1 | h2
      · left
        rw [(dispatch_frame _).2.2.2.2.2] at h1
        exact h1
      · right
        exact h2
    · simp only [destroyResource, hf, if_neg hs] at h ⊢
      left
      exact h

theorem destroyResource_mono {s : PoolState} {rid : Nat} (h : s.drainResolved = true) :
    (destroyResource s rid).drainResolved = true := by
  cases hf : findRec s.records rid with
  | none => simpa only [destroyResource, hf]
  | some r =>
    by_cases hs : r.rstate = RState.ALLOCATED
    · simp only [destroyResource, hf, if_pos hs]
      apply checkDrain_mono
      rw [(dispatch_frame _).2.2.2.2.2]
      exact h
    · simpa only [destroyResource, hf, if_neg hs]

theorem evict_flag {s : PoolState} {rid : Nat}
    (h : (evict s rid).drainResolved = true) :
    s.drainResolved = true ∨
      (borrowedCount (evict s rid) = 0 ∧ pendingCount (evict s rid) = 0) := by
  cases hf : findRec s.records rid with
  | none =>
    simp only [evict, hf] at h ⊢
    left
    exact h
  | some r =>
    by_cases hs : r.rstate = RState.IDLE ∧ s.minR + 1 ≤ s.records.length
    · simp only [evict, hf, if_pos hs] at h ⊢
      rcases checkDrain_flag _ h with h1 | h2
      · left
        exact h1
      · right
        exact h2
    · simp only [evict, hf, if_neg hs] at h ⊢
      left
      exact h

theorem evict_mono {s : PoolState} {rid : Nat} (h : s.drainResolved = true) :
    (evict s rid).drainResolved = true := by
  cases hf : findRec s.records rid with
  | none => simpa only [evict, hf]
  | some r =>
    by_cases hs : r.rstate = RState.IDLE ∧ s.minR + 1 ≤ s.records.length
    · simp only [evict, hf, if_pos hs]
      exact checkDrain_mono h
    · simpa only [evict, hf, if_neg hs]

theorem step_flag (s : PoolState) (e : Event)
    (h : (step s e).drainResolved = true) :
    s.drainResolved = true ∨
      (borrowedCount (step s e) = 0 ∧ pendingCount (step s e) = 0) := by
  cases e with
  | acquireE p =>
    left
    simp only [step] at h
    split at h
    · rename_i s' hs'
      rw [acquire_flag hs'] at h
      exact h
    · exact h
  | releaseE rid => exact release_flag h
  | createOkE => exact createComplete_flag h
  | createFailE => exact createFailure_flag h
  | timeoutE wid => exact waiterTimeout_flag h
  | drainE => exact drain_flag h
  | clearE =>
    left
    simp only [step] at h
    split at h
    · rename_i s' hs'
      rw [clear_flag hs'] at h
      exact h
    · exact h
  | destroyE rid => exact destroyResource_flag h
  | evictE rid => exact evict_flag h

theorem step_mono (s : PoolState) (e : Event) (h : s.drainResolved = true) :
    (step s e).drainResolved = true := by
  cases e with
  | acquireE p =>
    simp only [step]
    split
    · rename_i s' hs'
      rw [acquire_flag hs']
      exact h
    · exact h
  | releaseE rid => exact release_mono h
  | createOkE => exact createComplete_mono h
  | createFailE => exact createFailure_mono h
  | timeoutE wid => exact waiterTimeout_mono h
  | drainE => exact drain_mono h
  | clearE =>
    simp only [step]
    split
    · rename_i s' hs'
      rw [clear_flag hs']
      exact h
    · exact h
  | destroyE rid => exact destroyResource_mono h
  | evictE rid => exact evict_mono h


/-! ## Index-access lemmas for `updateNth` -/

theorem updateNth_getD {α : Type} (l : List α) (i : Nat) (f : α → α) (d : α)
    (h : i < l.length) : (updateNth l i f).getD i d = f (l.getD i d) := by
  induction l generalizing i with
  | nil => simp at h
  | cons x xs ih =>
    cases i with
    | zero => rfl
    | succ j =>
      have hj : j < xs.length := by simpa using h
      simpa [updateNth] using ih j hj

theorem updateNth_lookup {α : Type} (l : List α) (i : Nat) (f : α → α) :
    (updateNth l i f).get? i = (l.get? i).map f := by
  induction l generalizing i with
  | nil => rfl
  | cons x xs ih =>
    cases i with
    | zero => rfl
    | succ j => simpa [updateNth] using ih j

/-! ## Pool construction and concrete scenarios -/

/-- The state `createPool` produces for a valid configuration. -/
def initPool (m n pr : Nat) : PoolState :=
  { maxR := m, minR := n, prange := pr,
    records := [], waiters := List.replicate pr [],
    nextRid := 0, nextWid := 0, inflight := n,
    mode := Mode.RUNNING, drainResolved := false,
    fulfilled := [], rejected := [] }

theorem createPool_eq_initPool {m n pr : Nat} (hmn : n ≤ m) (hpr : 1 ≤ pr) :
    createPool m n pr = Except.ok (initPool m n pr) := by
  unfold createPool initPool
  rw [if_neg (by omega)]

/-- Test `"test"` of `tests/pool.spec.ts`: `max = 1`, `priority_range = 2`,
ten acquires at priority 1 then ten at priority 0; the single creation
completes, and each fulfilled borrower releases immediately. -/
def scenPriorityEvents : List Event :=
  List.replicate 10 (Event.acquireE 1) ++ List.replicate 10 (Event.acquireE 0) ++
  [Event.createOkE] ++ List.replicate 20 (Event.releaseE 0)

def scenPriorityFinal : PoolState := runEvents (initPool 1 0 2) scenPriorityEvents

/-- Test `"test03"`: `max = 1`, acquire A then acquire B, then the single
creation completes and A holds the loan. -/
def contentionMid : PoolState :=
  runEvents (initPool 1 0 1) [Event.acquireE 0, Event.acquireE 0, Event.createOkE]

/-- Test `"test03"` continued: A releases and B is dispatched. -/
def contentionAfter : PoolState := step contentionMid (Event.releaseE 0)

/-- Test `"test02"`: `max = 3`, `min = 3` (three pre-warm creations in
flight, blocked until the nudge), then three acquires. -/
def pendingScenAcquired : PoolState :=
  runEvents (initPool 3 3 1) [Event.acquireE 0, Event.acquireE 0, Event.acquireE 0]

/-- Test `"test02"` continued: the nudge lets the three creations complete,
the three borrowers release, and `drain` is called. -/
def pendingScenDrained : PoolState :=
  runEvents pendingScenAcquired
    [Event.createOkE, Event.createOkE, Event.createOkE,
     Event.releaseE 0, Event.releaseE 1, Event.releaseE 2, Event.drainE]

/-- The pool state after `clear` succeeds on the drained `test02` pool. -/
def pendingScenCleared : PoolState :=
  match clear pendingScenDrained with
  | Except.ok s => s
  | Except.error _ => pendingScenDrained

/-- A pool in DRAINING mode whose single resource is still on loan. -/
def drainScenState : PoolState :=
  { maxR := 1, minR := 0, prange := 1, records := [⟨0, RState.ALLOCATED⟩],
    waiters := [[]], nextRid := 1, nextWid := 0, inflight := 0,
    mode := Mode.DRAINING, drainResolved := false,
    fulfilled := [], rejected := [] }

/-- A running pool holding one IDLE record. -/
def releaseDemo : PoolState :=
  { initPool 1 0 1 with records := [⟨0, RState.IDLE⟩] }

/-- A draining pool holding one IDLE record and no loans. -/
def clearDemo : PoolState :=
  { initPool 1 0 1 with mode := Mode.DRAINING, records := [⟨0, RState.IDLE⟩] }

/-! ## TcpConnection (embedding of the shipped TCP connection wrapper) -/

/-- `ConnectionState` of the TCP connection source. -/
inductive ConnectionState : Type where
  | IDLE : ConnectionState
  | ALLOCATED : ConnectionState
  | DESTROYED : ConnectionState
deriving DecidableEq, Repr

/-- A `net.Socket` object as the wrapper observes it: its registered
listeners and whether `socket.destroy()` has been called. -/
structure NetSocket : Type where
  listeners : List String
  destroyed : Bool
deriving DecidableEq, Repr

/-- `socket.removeAllListeners()`. -/
def NetSocket.removeAllListeners (sk : NetSocket) : NetSocket :=
  { sk with listeners := [] }

/-- `socket.destroy()`. -/
def NetSocket.destroy (sk : NetSocket) : NetSocket :=
  { sk with destroyed := true }

/-- The `TcpConnection` fields `destroy()` touches; `socket` holds the
index of the owned socket object, `none` for `undefined`. -/
structure TcpConnection : Type where
  state : ConnectionState
  socket : Option Nat
  readyCheckTimer : Option Nat
  errorHooks : List Nat
deriving DecidableEq, Repr

/-- A connection together with the socket objects that exist outside it
(setting `this.socket = undefined` does not delete the object). -/
structure ConnWorld : Type where
  conn : TcpConnection
  sockets : List NetSocket
deriving DecidableEq, Repr

/-- `TcpConnection.destroy()`: set state DESTROYED, cancel the ready-check
timer, remove all socket listeners, clear the error hooks, destroy the
socket and finally set `this.socket = undefined`. -/
def destroyConn (w : ConnWorld) : ConnWorld :=
  { conn := { state := ConnectionState.DESTROYED,
              socket := none,
              readyCheckTimer := none,
              errorHooks := [] },
    sockets :=
      match w.conn.socket with
      | some i =>
          updateNth w.sockets i
            (fun sk => NetSocket.destroy (NetSocket.removeAllListeners sk))
      | none => w.sockets }

/-- A live connection owning socket 0 with listeners, a timer and a hook. -/
def connDemo : ConnWorld :=
  { conn := { state := ConnectionState.IDLE, socket := some 0,
              readyCheckTimer := some 5, errorHooks := [1, 2] },
    sockets := [{ listeners := ["ready", "close", "error"], destroyed := false }] }

/-! ## TcpPool.send (embedding of the shipped example client) -/

/-- How the promise returned by `send` settles. -/
inductive SendResult (E T : Type) : Type where
  | resolved : T → SendResult E T
  | rejected : E → SendResult E T
deriving DecidableEq, Repr

/-- `TcpPool.send`: acquire, then run the task on the connection; the catch
handler rejects with the acquire error, and the finally handler releases
the connection exactly when the `connection` local was assigned.  Returns
the settled outcome and the list of connections released back. -/
def sendRun {E C T : Type} (acq : Except E C) (task : C → SendResult E T) :
    SendResult E T × List C :=
  let connection : Option C :=
    match acq with
    | Except.ok c => some c
    | Except.error _ => none
  let outcome : SendResult E T :=
    match acq with
    | Except.error e => SendResult.rejected e
    | Except.ok c => task c
  let releases : List C :=
    match connection with
    | some c => [c]
    | none => []
  (outcome, releases)


/-! ## Claim theorems -/

set_option maxRecDepth 8192 in
/-- C1: Strict priority dispatch — whenever a waiter is dispatched from
priority class `p`, every higher-priority class (lower index) is empty at
that point; and in the `max = 1`, `priority_range = 2` scenario with ten
priority-1 acquires followed by ten priority-0 acquires (each released on
fulfilment), all ten priority-0 waiters are fulfilled before every
priority-1 waiter. -/
theorem strict_priority_dispatch :
    (∀ (qs : List (List Nat)) (p w : Nat), peekW qs = some (p, w) →
      ∀ i, i < p → qs.getD i [] = []) ∧
    scenPriorityFinal.fulfilled.map Prod.fst =
      (List.range 10).map (fun i => i + 10) ++ List.range 10 := by
  constructor
  · exact peekW_high_empty
  · rfl

theorem strict_priority_dispatch_witness :
    peekW [([] : List Nat), [7]] = some (1, 7) ∧
      ([([] : List Nat), [7]]).getD 0 [] = [] := by
  refine ⟨rfl, ?_⟩
  exact strict_priority_dispatch.1 [[], [7]] 1 7 rfl 0 (by decide)

/-- C2: Drain safety — if the step taken from `s` by event `e` resolves the
drain deferred, then at that step `borrowed = 0` and `pending = 0`; the
deferred therefore never resolves while a resource is borrowed or a waiter
is pending. -/
theorem drain_safety (s : PoolState) (e : Event)
    (h0 : s.drainResolved = false) (h1 : (step s e).drainResolved = true) :
    borrowedCount (step s e) = 0 ∧ pendingCount (step s e) = 0 := by
  rcases step_flag s e h1 with hc | hc
  · rw [h0] at hc
    cases hc
  · exact hc

theorem drain_safety_witness :
    drainScenState.drainResolved = false ∧
    (step drainScenState (Event.releaseE 0)).drainResolved = true ∧
    borrowedCount (step drainScenState (Event.releaseE 0)) = 0 ∧
    pendingCount (step drainScenState (Event.releaseE 0)) = 0 := by
  refine ⟨rfl, rfl, ?_⟩
  exact drain_safety drainScenState (Event.releaseE 0) rfl rfl

/-- C3: Bound invariant — a freshly constructed pool satisfies `WF`
(records plus in-flight creations within `max`), every pool event
preserves `WF`, `WF` gives `size ≤ max`, `borrowed ≤ size` always holds,
and the introspection counters equal their defining populations. -/
theorem bound_invariant :
    (∀ (m n pr : Nat) (s0 : PoolState), createPool m n pr = Except.ok s0 → WF s0) ∧
    (∀ (s : PoolState) (e : Event), WF s → WF (step s e)) ∧
    (∀ s : PoolState, WF s → poolSize s ≤ s.maxR) ∧
    (∀ s : PoolState, borrowedCount s ≤ poolSize s) ∧
    (∀ s : PoolState, poolSize s = s.records.length ∧
      borrowedCount s = countAllocated s.records ∧
      pendingCount s = sumLens s.waiters ∧
      spareCapacity s = s.maxR - (poolSize s + s.inflight)) := by
  refine ⟨fun m n pr s0 h => createPool_WF h, fun s e hw => step_WF s e hw, ?_, ?_, ?_⟩
  · intro s hw
    unfold WF at hw
    unfold poolSize
    omega
  · intro s
    exact countAllocated_le_length s.records
  · intro s
    exact ⟨rfl, rfl, rfl, rfl⟩

theorem bound_invariant_witness :
    WF (initPool 1 0 2) ∧ WF (step (initPool 1 0 2) (Event.acquireE 0)) := by
  refine ⟨by decide, ?_⟩
  exact bound_invariant.2.1 (initPool 1 0 2) (Event.acquireE 0) (by decide)

/-- C4: Counters during contention — with `max = 1`, after acquire A,
acquire B and the creation completing, A holds the loan and the counters
read `available = 0, borrowed = 1, pending = 1`; after A releases and B is
dispatched they read `available = 0, borrowed = 1, pending = 0`. -/
theorem counters_during_contention :
    availableCount contentionMid = 0 ∧ borrowedCount contentionMid = 1 ∧
    pendingCount contentionMid = 1 ∧
    availableCount contentionAfter = 0 ∧ borrowedCount contentionAfter = 1 ∧
    pendingCount contentionAfter = 0 ∧
    contentionAfter.fulfilled = [(0, 0), (1, 0)] :=
  ⟨rfl, rfl, rfl, rfl, rfl, rfl, rfl⟩

/-- C5: Pending accounting with blocked pre-warm — `max = 3, min = 3`
pre-warms three blocked creations; after three acquires `pending = 3`;
once the nudge completes the creations and all three resources are
released, the drain deferred resolves and `clear` then succeeds (its
result carries no resource value), leaving a CLEARED pool of size 0. -/
theorem pending_accounting :
    createPool 3 3 1 = Except.ok (initPool 3 3 1) ∧
    pendingCount pendingScenAcquired = 3 ∧
    pendingScenDrained.drainResolved = true ∧
    clear pendingScenDrained = Except.ok pendingScenCleared ∧
    pendingScenCleared.mode = Mode.CLEARED ∧
    poolSize pendingScenCleared = 0 :=
  ⟨rfl, rfl, rfl, rfl, rfl, rfl⟩

/-- C6: Idempotent release — releasing a resource unknown to the pool, or
one whose record is already IDLE, is a silent no-op: the pool state (and
hence every counter) is unchanged. -/
theorem idempotent_release (s : PoolState) (rid : Nat) :
    (findRec s.records rid = none → release s rid = s) ∧
    (∀ r : Rec, findRec s.records rid = some r → r.rstate = RState.IDLE →
      release s rid = s) := by
  constructor
  · intro h
    simp only [release, h]
  · intro r h hr
    simp only [release, h, if_pos hr]

theorem idempotent_release_witness :
    release releaseDemo 5 = releaseDemo ∧
      release (release releaseDemo 0) 0 = release releaseDemo 0 := by
  constructor
  · exact (idempotent_release releaseDemo 5).1 rfl
  · exact (idempotent_release (release releaseDemo 0) 0).2 ⟨0, RState.IDLE⟩ rfl rfl

/-- C7: Priority clamping — `clampPrio` sends every priority into
`[0, P-1]` (negatives to 0, values `≥ P` to `P-1`), `enqueueW` appends to
the sub-queue of the clamped index, and on a running pool `acquire` always
succeeds whatever priority is passed. -/
theorem priority_clamping :
    (∀ (p : Int) (pr : Nat), 1 ≤ pr →
      clampPrio p pr < pr ∧ (p < 0 → clampPrio p pr = 0) ∧
      ((pr : Int) ≤ p → clampPrio p pr = pr - 1)) ∧
    (∀ (qs : List (List Nat)) (p w : Nat), p < qs.length →
      (enqueueW qs p w).getD p [] = qs.getD p [] ++ [w]) ∧
    (∀ (s : PoolState) (p : Int), s.mode = Mode.RUNNING →
      ∃ s', acquire s p = Except.ok s') := by
  refine ⟨?_, ?_, ?_⟩
  · intro p pr hpr
    unfold clampPrio
    refine ⟨?_, ?_, ?_⟩
    · split
      · omega
      · have := Nat.min_le_right p.toNat (pr - 1)
        omega
    · intro hp
      rw [if_pos hp]
    · intro hp
      rw [if_neg (by omega)]
      have h1 : pr ≤ p.toNat := by omega
      omega
  · intro qs p w hp
    exact updateNth_getD qs p (fun q => q ++ [w]) [] hp
  · intro s p hm
    unfold acquire
    rw [if_pos hm]
    exact ⟨_, rfl⟩

theorem priority_clamping_witness :
    clampPrio 5 2 < 2 ∧ clampPrio (-3) 2 = 0 ∧ clampPrio 5 2 = 1 := by
  refine ⟨(priority_clamping.1 5 2 (by decide)).1,
    (priority_clamping.1 (-3) 2 (by decide)).2.1 (by decide),
    (priority_clamping.1 5 2 (by decide)).2.2 (by decide)⟩

/-- C8: clear contract — `clear` fails unless the mode is DRAINING or
CLEARED, fails with `PoolNotDrained` while any resource is borrowed, and
otherwise removes every IDLE record (leaving none available) and sets the
mode to CLEARED. -/
theorem clear_contract (s : PoolState) :
    (s.mode = Mode.RUNNING → ∃ err, clear s = Except.error err) ∧
    (s.mode ≠ Mode.RUNNING → countAllocated s.records ≠ 0 →
      clear s = Except.error PoolError.PoolNotDrained) ∧
    (s.mode ≠ Mode.RUNNING → countAllocated s.records = 0 →
      clear s =
        Except.ok { s with records := dropIdle s.records, mode := Mode.CLEARED } ∧
      availableCount
        { s with records := dropIdle s.records, mode := Mode.CLEARED } = 0) := by
  refine ⟨?_, ?_, ?_⟩
  · intro hm
    refine ⟨PoolError.PoolNotDrained, ?_⟩
    unfold clear
    rw [if_pos hm]
  · intro hm hb
    unfold clear
    rw [if_neg hm, if_pos hb]
  · intro hm hb
    constructor
    · unfold clear
      rw [if_neg hm, if_neg (by omega)]
    · unfold availableCount
      exact countIdle_dropIdle s.records

theorem clear_contract_witness :
    clear clearDemo =
      Except.ok { clearDemo with records := dropIdle clearDemo.records,
                                 mode := Mode.CLEARED } :=
  ((clear_contract clearDemo).2.2 (by decide) (by decide)).1

/-- C9: `TcpConnection.destroy` is idempotent — after `destroy` the
connection is DESTROYED with no timer, no hooks and no socket, the socket
object it owned has all listeners removed and is destroyed, and a second
`destroy` returns the identical world. -/
theorem tcp_destroy_idempotent :
    (∀ w : ConnWorld, (destroyConn w).conn.state = ConnectionState.DESTROYED ∧
      (destroyConn w).conn.readyCheckTimer = none ∧
      (destroyConn w).conn.errorHooks = [] ∧
      (destroyConn w).conn.socket = none) ∧
    (∀ (w : ConnWorld) (i : Nat), w.conn.socket = some i →
      ((destroyConn w).sockets.get? i) =
        (w.sockets.get? i).map (fun _ => { listeners := [], destroyed := true })) ∧
    (∀ w : ConnWorld, destroyConn (destroyConn w) = destroyConn w) := by
  refine ⟨fun w => ⟨rfl, rfl, rfl, rfl⟩, ?_, fun w => rfl⟩
  intro w i h
  simp only [destroyConn, h]
  exact updateNth_lookup w.sockets i _

theorem tcp_destroy_idempotent_witness :
    (destroyConn connDemo).sockets.get? 0 =
      some { listeners := [], destroyed := true } := by
  have h := tcp_destroy_idempotent.2.1 connDemo 0 rfl
  rw [h]
  rfl

/-- C10: no connection leak in `TcpPool.send` — when the inner acquire
succeeds the acquired connection is released exactly once and the promise
settles with the task's outcome; when acquire fails nothing is released
and the promise rejects with the acquire error. -/
theorem send_no_leak {E C T : Type} (acq : Except E C) (task : C → SendResult E T) :
    (∀ c : C, acq = Except.ok c →
      (sendRun acq task).2 = [c] ∧ (sendRun acq task).1 = task c) ∧
    (∀ e : E, acq = Except.error e →
      (sendRun acq task).2 = [] ∧ (sendRun acq task).1 = SendResult.rejected e) := by
  constructor
  · intro c h
    subst h
    exact ⟨rfl, rfl⟩
  · intro e h
    subst h
    exact ⟨rfl, rfl⟩

theorem send_no_leak_witness :
    (sendRun (Except.ok 7 : Except Nat Nat)
      (fun c => SendResult.resolved (c + 1))).2 = [7] :=
  ((send_no_leak (Except.ok 7) (fun c => SendResult.resolved (c + 1))).1 7 rfl).1

end TPool
